import Mathlib

/-!
Verification of the feed polling and conditional-fetch cache subsystem of
feed-to-epub. The Cache Store (src/storage.rs) is modelled as explicit state:
a `Store` holds the rows of the two SQLite tables `feeds` and `entries`.
The Feed Poll Coordinator (src/feed_reader/mod.rs, `FeedReader::fetch_feed`)
is modelled as a pure function over that state, with the HTTP layer passed
in as an oracle from requests to responses and an explicit flag recording
whether the network was called.

Timestamps: jiff::Timestamp is modelled as a Nat (seconds). The `last_fetched`
TEXT column stores the serialization of a timestamp; `TsText.good n` stands
for the RFC3339 serialization of timestamp `n` (which jiff re-parses to `n`),
and `TsText.bad s` stands for any other string, whose parse fails. This keeps
the essential behaviour of `to_string` / `parse` without modelling RFC3339.
-/

/-- Content of the `last_fetched` TEXT column: either the serialization of a
timestamp (re-parses to that timestamp) or a non-parsing string. -/
inductive TsText where
  | good (n : Nat)
  | bad (s : String)
deriving DecidableEq, Repr

/-- Models parsing a `last_fetched` cell with `str.parse::<jiff::Timestamp>()`. -/
def parseLastFetched : TsText → Option Nat
  | .good n => some n
  | .bad _ => none

/-- Models serializing `last_fetched` with `Timestamp::to_string()`
(storage.rs line 162): the result always re-parses. -/
def serializeLastFetched (lf : Option Nat) : Option TsText :=
  lf.map TsText.good

/-- One row of the `feeds` table (schema in storage.rs, init_database,
lines 55-61): id INTEGER PRIMARY KEY, feed_url TEXT NOT NULL,
last_modified TEXT, last_fetched TEXT, etag TEXT. Note the schema puts no
UNIQUE constraint on feed_url. -/
structure FeedRow where
  id : Nat
  feed_url : String
  last_modified : Option String
  last_fetched : Option TsText
  etag : Option String
deriving DecidableEq, Repr

/-- One row of the `entries` table (schema in storage.rs, lines 66-76):
id INTEGER PRIMARY KEY, feed_id INTEGER NOT NULL, feed_entry_id TEXT,
title TEXT, updated TEXT, authors TEXT, summary TEXT, content BLOB.
No UNIQUE constraint other than the primary key. -/
structure EntryRow where
  id : Nat
  feed_id : Nat
  feed_entry_id : Option String
  title : String
  updated : Option String
  authors : Option String
  summary : String
  content : String
deriving DecidableEq, Repr

/-- The database state: the rows of the two tables, in rowid order. -/
structure Store where
  feeds : List FeedRow
  entries : List EntryRow
deriving DecidableEq, Repr

/-- A freshly initialised database (init_database on a new file: both tables
exist and are empty). -/
def emptyStore : Store := ⟨[], []⟩

/-- SQLite assigns a NULL INTEGER PRIMARY KEY the largest rowid plus one. -/
def freshId (ids : List Nat) : Nat := ids.foldr max 0 + 1

/-- The rowid assigned to the next inserted `feeds` row. -/
def freshFeedId (store : Store) : Nat := freshId (store.feeds.map (·.id))

/-- The rowid assigned to the next inserted `entries` row. -/
def freshEntryId (store : Store) : Nat := freshId (store.entries.map (·.id))

/-- storage.rs FeedStats (lines 84-93): the in-memory copy of one feed row;
`last_fetched` is a parsed timestamp. -/
structure FeedStats where
  id : Nat
  url : String
  last_modified : Option String
  last_fetched : Option Nat
  etag : Option String
deriving DecidableEq, Repr

/-- Result of a Cache Store read. `ok` carries the value; `panicked` models a
Rust panic (the `.expect` calls), which aborts rather than returning an error
value. rusqlite infrastructure errors (I/O) are outside the model. -/
inductive DBResult (α : Type) where
  | ok (a : α)
  | panicked (msg : String)
deriving DecidableEq, Repr

/-- Storage::feed_stats_from_db (storage.rs lines 112-146): SELECT the first
row with the given feed_url; absence gives `ok none` (query_row + optional);
a `last_fetched` cell that does not parse as a timestamp hits
`.expect("we manage our own timestamps, this row is corrupted")`, a panic. -/
def feed_stats_from_db (store : Store) (url : String) : DBResult (Option FeedStats) :=
  match store.feeds.find? (fun r => r.feed_url == url) with
  | none => .ok none
  | some r =>
    match r.last_fetched with
    | none => .ok (some ⟨r.id, url, r.last_modified, none, r.etag⟩)
    | some txt =>
      match parseLastFetched txt with
      | some ts => .ok (some ⟨r.id, url, r.last_modified, some ts, r.etag⟩)
      | none => .panicked "we manage our own timestamps, this row is corrupted"

/-- Storage::feed_stats_to_db (storage.rs lines 148-174):
INSERT OR REPLACE INTO feeds (id, feed_url, etag, last_modified, last_fetched)
VALUES ((SELECT id FROM feeds WHERE feed_url = ?1), ?1, ?2, ?3, ?4).
If a row with this feed_url exists, the subselect yields its id and REPLACE
overwrites that row in place (same rowid, every column rewritten from the
given FeedStats; the id field of the argument is not used). If none exists,
the subselect yields NULL and a fresh row is appended with a fresh rowid. -/
def feed_stats_to_db (store : Store) (fs : FeedStats) : Store :=
  match store.feeds.find? (fun r => r.feed_url == fs.url) with
  | some old =>
    { store with feeds := store.feeds.map (fun r =>
        if r.id == old.id then
          ⟨old.id, fs.url, fs.last_modified, serializeLastFetched fs.last_fetched, fs.etag⟩
        else r) }
  | none =>
    { store with feeds := store.feeds ++
        [⟨freshFeedId store, fs.url, fs.last_modified, serializeLastFetched fs.last_fetched, fs.etag⟩] }

/-- Result of Storage::new_feed_stats_to_db: the created FeedStats, the
distinguished not-found-after-insert error, or a propagated panic from the
re-read. -/
inductive CreateResult where
  | ok (s : FeedStats)
  | newFeedNotFoundError
  | panicked (msg : String)
deriving DecidableEq, Repr

/-- Storage::new_feed_stats_to_db (storage.rs lines 176-187): plain
INSERT INTO feeds (feed_url) VALUES (?1) — every other column NULL — then
re-read via feed_stats_from_db; an empty re-read yields
ErrorNewFeedStats::NewFeedNotFoundError. -/
def new_feed_stats_to_db (store : Store) (url : String) : CreateResult × Store :=
  let store' := { store with
    feeds := store.feeds ++ [⟨freshFeedId store, url, none, none, none⟩] }
  match feed_stats_from_db store' url with
  | .panicked msg => (.panicked msg, store')
  | .ok (some fs) => (.ok fs, store')
  | .ok none => (.newFeedNotFoundError, store')

/-- storage.rs Entry (lines 190-199): the in-memory entry shape. -/
structure Entry where
  feed_id : Nat
  feed_entry_id : Option String
  title : String
  updated : Option String
  authors : Option String
  summary : String
  content : String
deriving DecidableEq, Repr

/-- Storage::new_entry_to_db (storage.rs lines 312-331):
INSERT OR REPLACE INTO entries (feed_id, feed_entry_id, title, updated,
authors, summary, content) VALUES (?1..?7). The id column is not supplied, so
SQLite assigns a fresh rowid; the only uniqueness constraint on `entries` is
that primary key, so the REPLACE clause never fires and the statement always
inserts a new row. -/
def new_entry_to_db (store : Store) (e : Entry) : Store :=
  { store with entries := store.entries ++
      [⟨freshEntryId store, e.feed_id, e.feed_entry_id, e.title, e.updated,
        e.authors, e.summary, e.content⟩] }

/-- The stored last_fetched cell for a url: the field of the first matching
row, if any. -/
def lastFetchedOf (store : Store) (url : String) : Option TsText :=
  (store.feeds.find? (fun r => r.feed_url == url)).bind (·.last_fetched)

/-- The stored etag for a url. -/
def etagOf (store : Store) (url : String) : Option String :=
  (store.feeds.find? (fun r => r.feed_url == url)).bind (·.etag)

/-- The id of the first stored row for a url, if any. -/
def feedIdOf (store : Store) (url : String) : Option Nat :=
  (store.feeds.find? (fun r => r.feed_url == url)).map (·.id)

/-- All `feeds` rows for a url. -/
def feedRowsFor (store : Store) (url : String) : List FeedRow :=
  store.feeds.filter (fun r => r.feed_url == url)

/-- All `entries` rows with the given (feed_id, feed_entry_id) natural key. -/
def entryRowsFor (store : Store) (fid : Nat) (eid : Option String) : List EntryRow :=
  store.entries.filter (fun r => r.feed_id == fid && r.feed_entry_id == eid)

/-- storage.rs EntryConversionError (lines 201-209). -/
inductive EntryConversionError where
  | bodyExtractionError
  | summaryExtractionError
  | titleExtractionError
deriving DecidableEq, Repr

/-- feed_rs Text node as used by the code: only its `content` string is read. -/
structure FeedText where
  content : String
deriving DecidableEq, Repr

/-- feed_rs Content node as used by the code: only its optional `body`. -/
structure FeedContent where
  body : Option String
deriving DecidableEq, Repr

/-- feed_rs Person as used by the code: only its `name`. -/
structure FeedPerson where
  name : String
deriving DecidableEq, Repr

/-- feed_rs model Entry, restricted to the fields entry_from_feed_entry reads.
`updated` is a timestamp (modelled as Nat, serialized with to_rfc3339). -/
structure FeedEntry where
  id : String
  title : Option FeedText
  updated : Option Nat
  authors : List FeedPerson
  summary : Option FeedText
  content : Option FeedContent
deriving DecidableEq, Repr

/-- feed_rs model Feed as used by the coordinator: its list of entries. -/
structure Feed where
  entries : List FeedEntry
deriving DecidableEq, Repr

/-- Models chrono DateTime::to_rfc3339: an injective serialization of the
timestamp, never parsed back by this codebase. -/
def rfc3339 (t : Nat) : String := toString t

/-- storage.rs extract_html_string_from_entry (lines 252-268). -/
def extract_html_string_from_entry (entry : FeedEntry) :
    Except EntryConversionError String :=
  match entry.content with
  | some content =>
    match content.body with
    | some body => .ok body
    | none => .error .bodyExtractionError
  | none =>
    match entry.summary with
    | some summary => .ok summary.content
    | none => .error .summaryExtractionError

/-- storage.rs entry_from_feed_entry (lines 211-250): best-effort conversion
of a parsed feed entry to the storage Entry shape. The summary is kept only
when shorter than 1000 bytes (MAX_SUMMARY_LENGTH_BYTES); content extraction
may fail, which fails the whole conversion. -/
def entry_from_feed_entry (feed_id : Nat) (e : FeedEntry) :
    Except EntryConversionError Entry :=
  let title := match e.title with
    | some t => t.content
    | none => ""
  let updated := e.updated.map rfc3339
  let authors := e.authors.map (·.name)
  let summary_content := match e.summary with
    | some summary =>
      if summary.content.utf8ByteSize < 1000 then summary.content else ""
    | none => ""
  match extract_html_string_from_entry e with
  | .error err => .error err
  | .ok content =>
    .ok { feed_id := feed_id, feed_entry_id := some e.id, title := title,
          updated := updated, authors := some (String.intercalate "," authors),
          summary := summary_content, content := content }

/-- feed_reader/config ConditionalType, as used in feed_reader/mod.rs
lines 116-128 (same two variants as feed_reader_v2/config.rs lines 46-50). -/
inductive ConditionalType where
  | ETag
  | LastModified
deriving DecidableEq, Repr

/-- One feed entry of the configuration (config.feeds[feed_name]), with the
fields fetch_feed reads plus poll_interval_secs from
feed_reader_v2/config.rs lines 33-44 (default 14400, validated to be at
least 3600 at load time). -/
structure FeedConfigEntry where
  url : String
  poll_interval_secs : Nat
  conditional_type : ConditionalType
  download_dir : String
deriving DecidableEq, Repr

/-- The single conditional GET request built in fetch_feed lines 114-128:
the url and the at-most-one conditional header set on it. -/
structure HttpRequest where
  url : String
  header : Option (String × String)
deriving DecidableEq, Repr

/-- An HTTP response as consumed by fetch_feed: the status code, the
Last-Modified and ETag response headers, and the parsed body
(`none` models a feed_rs ParseFeedError on the body stream). -/
structure HttpResponse where
  status : Nat
  last_modified : Option String
  etag : Option String
  body : Option Feed
deriving DecidableEq, Repr

/-- feed_reader/mod.rs FetchError (lines 14-28). Transport errors from
request.call() are outside the model (the network oracle is total). -/
inductive FetchError where
  | feedParseError
  | entryConversionError (e : EntryConversionError)
  | storageCreateError
  | storageDBOperationError
  | storageNewFeedError
  | httpError
deriving DecidableEq, Repr

/-- The value fetch_feed hands its caller: Ok(Option<Feed>), an error, or a
propagated panic from the storage layer. -/
inductive FetchResult where
  | ok (feed : Option Feed)
  | err (e : FetchError)
  | panicked (msg : String)
deriving DecidableEq, Repr

/-- The observable outcome of one fetch_feed invocation: the returned value,
the database state afterwards, and whether request.call() was reached. -/
structure FetchOutcome where
  result : FetchResult
  store : Store
  networkCalled : Bool
deriving DecidableEq, Repr

/-- The conditional header chosen in fetch_feed lines 116-128: for ETag feeds
an `ETag: <stored etag>` header, for LastModified feeds an
`If-Modified-Since: <stored last_modified>` header; none when the stored
validator is absent. -/
def conditionalHeader (cfg : FeedConfigEntry) (fs : FeedStats) :
    Option (String × String) :=
  match cfg.conditional_type with
  | .ETag => fs.etag.map (fun e => ("ETag", e))
  | .LastModified => fs.last_modified.map (fun lm => ("If-Modified-Since", lm))

/-- fetch_feed lines 131-152: classify the response. 304 and 429 yield no
feed data and leave the in-memory stats untouched; any other status refreshes
the in-memory validators from the response headers and parses the body
(a parse failure propagates as FeedParseError via the ? operator). -/
def classifyResponse (fs : FeedStats) (resp : HttpResponse) :
    Except FetchError (FeedStats × Option Feed) :=
  if resp.status = 304 then .ok (fs, none)
  else if resp.status = 429 then .ok (fs, none)
  else
    let fs := { fs with
      last_modified := match resp.last_modified with
        | some lm => some lm
        | none => fs.last_modified,
      etag := match resp.etag with
        | some e => some e
        | none => fs.etag }
    match resp.body with
    | some feed => .ok (fs, some feed)
    | none => .error .feedParseError

/-- fetch_feed lines 155-169: convert each entry best-effort (failures are
logged and skipped by the filter_map) and persist every conversion that
succeeded. -/
def ingestEntries (fid : Nat) (entries : List FeedEntry) (store : Store) : Store :=
  (entries.filterMap (fun e =>
    match entry_from_feed_entry fid e with
    | .ok entry => some entry
    | .error _ => none)).foldl new_entry_to_db store

/-- fetch_feed lines 114-179, after the stats are loaded and the gate has
passed: build the conditional request, call the network, classify, and on
fresh data ingest the entries, stamp last_fetched with the current time and
persist the stats. A response classified as no-data (304 or 429) falls into
the else branch at lines 174-179, which returns
Err(EntryConversionError(SummaryExtractionError)) without touching storage. -/
def fetchRequest (cfg : FeedConfigEntry) (fs : FeedStats) (store : Store)
    (now : Nat) (net : HttpRequest → HttpResponse) : FetchOutcome :=
  let resp := net ⟨cfg.url, conditionalHeader cfg fs⟩
  match classifyResponse fs resp with
  | .error e => ⟨.err e, store, true⟩
  | .ok (_, none) =>
    ⟨.err (.entryConversionError .summaryExtractionError), store, true⟩
  | .ok (fs', some feed) =>
    let store := ingestEntries fs'.id feed.entries store
    let fs'' := { fs' with last_fetched := some now }
    ⟨.ok (some feed), feed_stats_to_db store fs'', true⟩

/-- fetch_feed lines 91-112: the directory-creation step is external I/O whose
failure is only logged, then the due-ness gate: with a stored last_fetched,
skip (Ok(None), no network call) when the elapsed time is under two hours
(`time_diff.as_hours() < 2`, a fixed constant). -/
def fetchAfterLoad (cfg : FeedConfigEntry) (fs : FeedStats) (store : Store)
    (now : Nat) (net : HttpRequest → HttpResponse) : FetchOutcome :=
  match fs.last_fetched with
  | some lf =>
    if (now - lf) / 3600 < 2 then ⟨.ok none, store, false⟩
    else fetchRequest cfg fs store now net
  | none => fetchRequest cfg fs store now net

/-- FeedReader::fetch_feed (feed_reader/mod.rs lines 75-180) for one
configured feed: load-or-create the FeedStats row (lines 81-89), then gate
and fetch. `now` stands for the Timestamp the caller passes in and for the
Timestamp::now() read at line 171. -/
def fetch_feed (cfg : FeedConfigEntry) (store : Store) (now : Nat)
    (net : HttpRequest → HttpResponse) : FetchOutcome :=
  match feed_stats_from_db store cfg.url with
  | .panicked msg => ⟨.panicked msg, store, false⟩
  | .ok (some fs) => fetchAfterLoad cfg fs store now net
  | .ok none =>
    match new_feed_stats_to_db store cfg.url with
    | (.ok fs, store') => fetchAfterLoad cfg fs store' now net
    | (.newFeedNotFoundError, store') => ⟨.err .storageNewFeedError, store', false⟩
    | (.panicked msg, store') => ⟨.panicked msg, store', false⟩

/-- The id the row for `url` carries after feed_stats_to_db: the id of the
pre-existing row when one exists (the subselect), else the fresh rowid. -/
def storedIdAfterSave (store : Store) (url : String) : Nat :=
  match store.feeds.find? (fun r => r.feed_url == url) with
  | some r => r.id
  | none => freshFeedId store

/-- A last_fetched cell the reader can handle without panicking: NULL or a
string that parses as a timestamp. -/
def goodCell : Option TsText → Bool
  | some (.bad _) => false
  | _ => true

/-- Well-formedness of the `feeds` table as SQLite maintains it on the
reachable states: pairwise distinct urls (the §3 invariant) and pairwise
distinct rowids (the primary key). -/
def wfFeeds (store : Store) : Prop :=
  (store.feeds.map (·.feed_url)).Nodup ∧ (store.feeds.map (·.id)).Nodup

instance (store : Store) : Decidable (wfFeeds store) := by
  unfold wfFeeds; infer_instance

/-- A persisted entries row holds exactly the fields of a converted Entry. -/
def entryRowMatches (row : EntryRow) (ent : Entry) : Prop :=
  row.feed_id = ent.feed_id ∧ row.feed_entry_id = ent.feed_entry_id ∧
  row.title = ent.title ∧ row.updated = ent.updated ∧
  row.authors = ent.authors ∧ row.summary = ent.summary ∧
  row.content = ent.content

instance (row : EntryRow) (ent : Entry) : Decidable (entryRowMatches row ent) := by
  unfold entryRowMatches; infer_instance

/-- The Cache Store operations the Poll Coordinator performs on the `feeds`
table, with creation guarded as in fetch_feed lines 81-89: a bare row is
created only when the lookup finds none. -/
inductive StoreOp where
  | save (s : FeedStats)
  | loadOrCreate (url : String)
  | addEntry (e : Entry)
deriving DecidableEq, Repr

/-- Apply one coordinator-style operation to the store. -/
def applyOp (store : Store) : StoreOp → Store
  | .save s => feed_stats_to_db store s
  | .loadOrCreate url =>
    match feed_stats_from_db store url with
    | .ok none => (new_feed_stats_to_db store url).2
    | _ => store
  | .addEntry e => new_entry_to_db store e

/-- Apply a sequence of coordinator-style operations. -/
def applyOps (store : Store) (ops : List StoreOp) : Store :=
  ops.foldl applyOp store

theorem find?_append_none {α : Type _} {p : α → Bool} {l₁ l₂ : List α}
    (h : l₁.find? p = none) : (l₁ ++ l₂).find? p = l₂.find? p := by
  rw [List.find?_append, h, Option.none_or]

theorem find?_append_some {α : Type _} {p : α → Bool} {l₁ l₂ : List α} {a : α}
    (h : l₁.find? p = some a) : (l₁ ++ l₂).find? p = some a := by
  rw [List.find?_append, h]; rfl

theorem from_db_none_inv {store : Store} {url : String}
    (h : feed_stats_from_db store url = .ok none) :
    store.feeds.find? (fun r => r.feed_url == url) = none := by
  unfold feed_stats_from_db at h
  split at h
  next heq => exact heq
  next r heq =>
    exfalso
    split at h
    · simp at h
    · split at h <;> simp at h

/-- C7: looking up FeedStats for a url with no stored row succeeds with
absence — feed_stats_from_db returns Ok(None), not an error and not a
panic. -/
theorem getFeedStats_absent_is_none (store : Store) (url : String)
    (h : store.feeds.find? (fun r => r.feed_url == url) = none) :
    feed_stats_from_db store url = .ok none := by
  unfold feed_stats_from_db
  rw [h]

theorem getFeedStats_absent_is_none_witness :
    emptyStore.feeds.find? (fun r => r.feed_url == "https://example.com") = none ∧
    feed_stats_from_db emptyStore "https://example.com" = .ok none :=
  ⟨by decide, getFeedStats_absent_is_none emptyStore "https://example.com" (by decide)⟩

/-- C8: createFeedStats inserts a bare row — every optional field absent —
and returns exactly that row as re-read from storage, carrying the
store-assigned id and the given url. -/
theorem createFeedStats_bare_row_reread (store : Store) (url : String)
    (h : store.feeds.find? (fun r => r.feed_url == url) = none) :
    new_feed_stats_to_db store url =
      (.ok ⟨freshFeedId store, url, none, none, none⟩,
       { store with feeds := store.feeds ++ [⟨freshFeedId store, url, none, none, none⟩] }) ∧
    feed_stats_from_db
      { store with feeds := store.feeds ++ [⟨freshFeedId store, url, none, none, none⟩] } url
      = .ok (some ⟨freshFeedId store, url, none, none, none⟩) := by
  have hre : feed_stats_from_db
      { store with feeds := store.feeds ++ [⟨freshFeedId store, url, none, none, none⟩] } url
      = .ok (some ⟨freshFeedId store, url, none, none, none⟩) := by
    unfold feed_stats_from_db
    rw [show ({ store with feeds := store.feeds ++ [⟨freshFeedId store, url, none, none, none⟩] } : Store).feeds
        = store.feeds ++ [⟨freshFeedId store, url, none, none, none⟩] from rfl]
    rw [find?_append_none h]
    simp [List.find?]
  refine ⟨?_, hre⟩
  unfold new_feed_stats_to_db
  simp only [hre]

theorem createFeedStats_bare_row_reread_witness :
    new_feed_stats_to_db emptyStore "u" =
      (.ok ⟨1, "u", none, none, none⟩, ⟨[⟨1, "u", none, none, none⟩], []⟩) ∧
    feed_stats_from_db (⟨[⟨1, "u", none, none, none⟩], []⟩ : Store) "u"
      = .ok (some ⟨1, "u", none, none, none⟩) :=
  createFeedStats_bare_row_reread emptyStore "u" (by decide)

theorem find?_map_replaceRow (newR : FeedRow) {l : List FeedRow} {old : FeedRow}
    {url : String}
    (hfind : l.find? (fun r => r.feed_url == url) = some old)
    (hnew : newR.feed_url = url) :
    (l.map (fun r => if r.id == old.id then newR else r)).find?
      (fun r => r.feed_url == url) = some newR := by
  induction l with
  | nil => simp at hfind
  | cons a t ih =>
    rw [List.map_cons]
    by_cases hid : (a.id == old.id) = true
    · rw [if_pos hid]
      have hpa : (newR.feed_url == url) = true := by rw [hnew]; simp
      simp [List.find?_cons, hpa]
    · rw [if_neg hid]
      cases hpa : (a.feed_url == url) with
      | true =>
        exfalso
        simp only [List.find?_cons, hpa] at hfind
        have ha : a = old := by injection hfind
        rw [ha] at hid
        simp at hid
      | false =>
        simp only [List.find?_cons, hpa] at hfind ⊢
        exact ih hfind

theorem from_db_eq_of_find {store : Store} {url : String} {r : FeedRow}
    (hfind : store.feeds.find? (fun x => x.feed_url == url) = some r) :
    feed_stats_from_db store url =
      (match r.last_fetched with
       | none => .ok (some ⟨r.id, url, r.last_modified, none, r.etag⟩)
       | some txt =>
         match parseLastFetched txt with
         | some ts => .ok (some ⟨r.id, url, r.last_modified, some ts, r.etag⟩)
         | none => .panicked "we manage our own timestamps, this row is corrupted") := by
  unfold feed_stats_from_db
  rw [hfind]

/-- C5 (amended): saveFeedStats followed by getFeedStats returns a value
agreeing with the saved FeedStats on url and on every optional field — the
upsert rewrites every column, leaving nothing stale — while the id is the
store id for that url: the pre-existing row id when one exists, else the
fresh rowid. The id field of the saved value is ignored by the SQL, so full
equality holds exactly when the saved id already matches the stored one. -/
theorem saveFeedStats_get_roundtrip (store : Store) (s : FeedStats) :
    feed_stats_from_db (feed_stats_to_db store s) s.url =
      .ok (some { s with id := storedIdAfterSave store s.url }) := by
  unfold feed_stats_to_db storedIdAfterSave
  cases hfind : store.feeds.find? (fun r => r.feed_url == s.url) with
  | none =>
    unfold feed_stats_from_db
    rw [show ({ store with feeds := store.feeds ++
        [⟨freshFeedId store, s.url, s.last_modified, serializeLastFetched s.last_fetched, s.etag⟩] } : Store).feeds
      = store.feeds ++
        [⟨freshFeedId store, s.url, s.last_modified, serializeLastFetched s.last_fetched, s.etag⟩] from rfl]
    rw [find?_append_none hfind]
    cases hlf : s.last_fetched with
    | none => simp [List.find?, serializeLastFetched]
    | some n => simp [List.find?, serializeLastFetched, parseLastFetched]
  | some old =>
    have hrepl := find?_map_replaceRow
      ⟨old.id, s.url, s.last_modified, serializeLastFetched s.last_fetched, s.etag⟩
      hfind rfl
    unfold feed_stats_from_db
    rw [show ({ store with feeds := store.feeds.map (fun r =>
        if r.id == old.id then
          ⟨old.id, s.url, s.last_modified, serializeLastFetched s.last_fetched, s.etag⟩
        else r) } : Store).feeds
      = store.feeds.map (fun r =>
        if r.id == old.id then
          ⟨old.id, s.url, s.last_modified, serializeLastFetched s.last_fetched, s.etag⟩
        else r) from rfl]
    rw [hrepl]
    cases hlf : s.last_fetched with
    | none => simp [serializeLastFetched]
    | some n => simp [serializeLastFetched, parseLastFetched]

/-- C5 fails as stated: the claim asks that reading back returns a value
equal to the saved s for every s, but the write ignores s.id — saving a
FeedStats carrying id 2 into an empty store and reading it back yields the
store-assigned id 1, not an equal value. -/
theorem saveFeedStats_roundtrip_id_counterexample :
    feed_stats_from_db (feed_stats_to_db emptyStore ⟨2, "u", none, none, none⟩) "u"
      = .ok (some ⟨1, "u", none, none, none⟩) ∧
    (⟨1, "u", none, none, none⟩ : FeedStats) ≠ ⟨2, "u", none, none, none⟩ :=
  ⟨by decide, by decide⟩

/-- C2 fails on the code: writing the very same Entry twice leaves two rows
with the same (feed_id, feed_entry_id) key. The INSERT OR REPLACE of
new_entry_to_db never hits a uniqueness conflict — the entries table has no
UNIQUE constraint on that pair and the rowid is freshly assigned — so the
second write appends instead of overwriting. -/
theorem upsertEntry_duplicates_on_rewrite :
    (entryRowsFor
      (new_entry_to_db
        (new_entry_to_db emptyStore
          ⟨1, some "foo", "bar", some "baz", some "John Doe", "some summary", "x"⟩)
        ⟨1, some "foo", "bar", some "baz", some "John Doe", "some summary", "x"⟩)
      1 (some "foo")).length = 2 :=
  by decide

/-- C10 fails as stated: a stored row whose last_fetched text does not parse
as a timestamp makes getFeedStats panic — abort — rather than return an
error value. -/
theorem getFeedStats_corrupt_timestamp_panics :
    feed_stats_from_db ⟨[⟨1, "u", none, some (.bad "garbage"), none⟩], []⟩ "u"
      = .panicked "we manage our own timestamps, this row is corrupted" :=
  by decide

/-- C10 (amended): on any store whose last_fetched cells are NULL or validly
serialized — which is every store this subsystem writes itself — getFeedStats
never panics: it returns Ok, with absence (Ok none) exactly when no row for
the url exists, never standing in for a failure. -/
theorem getFeedStats_total_on_wellformed (store : Store) (url : String)
    (h : ∀ r ∈ store.feeds, goodCell r.last_fetched = true) :
    ∃ v, feed_stats_from_db store url = .ok v ∧
      (v = none ↔ store.feeds.find? (fun r => r.feed_url == url) = none) := by
  cases hfind : store.feeds.find? (fun r => r.feed_url == url) with
  | none =>
    refine ⟨none, ?_, by simp⟩
    unfold feed_stats_from_db
    rw [hfind]
  | some r =>
    have hr := h r (List.mem_of_find?_eq_some hfind)
    cases hlf : r.last_fetched with
    | none =>
      refine ⟨some ⟨r.id, url, r.last_modified, none, r.etag⟩, ?_, by simp [hfind]⟩
      rw [from_db_eq_of_find hfind, hlf]
    | some txt =>
      cases txt with
      | good n =>
        refine ⟨some ⟨r.id, url, r.last_modified, some n, r.etag⟩, ?_, by simp [hfind]⟩
        rw [from_db_eq_of_find hfind, hlf]
        simp [parseLastFetched]
      | bad str =>
        exfalso
        rw [hlf] at hr
        simp [goodCell] at hr

theorem getFeedStats_total_on_wellformed_witness :
    ∃ v, feed_stats_from_db (⟨[⟨1, "u", none, some (.good 42), some "e"⟩], []⟩ : Store) "u" = .ok v ∧
      (v = none ↔ (⟨[⟨1, "u", none, some (.good 42), some "e"⟩], []⟩ : Store).feeds.find?
        (fun r => r.feed_url == "u") = none) :=
  getFeedStats_total_on_wellformed ⟨[⟨1, "u", none, some (.good 42), some "e"⟩], []⟩ "u" (by decide)

theorem fetch_feed_eq_of_load {cfg : FeedConfigEntry} {store : Store} {now : Nat}
    {net : HttpRequest → HttpResponse} {fs : FeedStats}
    (hload : feed_stats_from_db store cfg.url = .ok (some fs)) :
    fetch_feed cfg store now net = fetchAfterLoad cfg fs store now net := by
  unfold fetch_feed
  rw [hload]

theorem fetch_feed_eq_of_create {cfg : FeedConfigEntry} {store st' : Store}
    {now : Nat} {net : HttpRequest → HttpResponse} {fs : FeedStats}
    (hload : feed_stats_from_db store cfg.url = .ok none)
    (hcreate : new_feed_stats_to_db store cfg.url = (.ok fs, st')) :
    fetch_feed cfg store now net = fetchAfterLoad cfg fs st' now net := by
  unfold fetch_feed
  rw [hload, hcreate]

theorem fetch_feed_eq_of_panic {cfg : FeedConfigEntry} {store : Store} {now : Nat}
    {net : HttpRequest → HttpResponse} {m : String}
    (hload : feed_stats_from_db store cfg.url = .panicked m) :
    fetch_feed cfg store now net = ⟨.panicked m, store, false⟩ := by
  unfold fetch_feed
  rw [hload]

theorem fetchAfterLoad_eq_of_stamp {cfg : FeedConfigEntry} {fs : FeedStats}
    {store : Store} {now lf : Nat} {net : HttpRequest → HttpResponse}
    (hlf : fs.last_fetched = some lf) :
    fetchAfterLoad cfg fs store now net =
      if (now - lf) / 3600 < 2 then ⟨.ok none, store, false⟩
      else fetchRequest cfg fs store now net := by
  unfold fetchAfterLoad
  rw [hlf]

theorem fetchAfterLoad_eq_of_fresh {cfg : FeedConfigEntry} {fs : FeedStats}
    {store : Store} {now : Nat} {net : HttpRequest → HttpResponse}
    (hlf : fs.last_fetched = none) :
    fetchAfterLoad cfg fs store now net = fetchRequest cfg fs store now net := by
  unfold fetchAfterLoad
  rw [hlf]

/-- C3 fails as stated: a feed configured with a 14400-second minimum poll
interval whose last fetch was 10800 seconds ago is inside its configured
interval, so the claim requires an immediate skip with no network request —
but fetch_feed calls the network: the gate at line 106 compares against a
fixed two-hour constant and never reads poll_interval_secs. -/
theorem dueGate_ignores_configured_interval :
    (10800 : Nat) < 14400 ∧
    (fetch_feed ⟨"u", 14400, .ETag, "d"⟩
      ⟨[⟨1, "u", none, some (.good 0), none⟩], []⟩ 10800
      (fun _ => ⟨200, none, none, some ⟨[]⟩⟩)).networkCalled = true :=
  ⟨by decide, by decide⟩

/-- C3 (amended): the due-ness gate returns skipped — Ok(None), no network
request, store untouched — whenever less than the fixed two-hour constant of
fetch_feed line 106 has elapsed since the stored last_fetched; the configured
poll interval of the feed plays no part in the comparison. -/
theorem dueGate_skips_within_two_hours (cfg : FeedConfigEntry) (store : Store)
    (now : Nat) (net : HttpRequest → HttpResponse) (fs : FeedStats) (lf : Nat)
    (hload : feed_stats_from_db store cfg.url = .ok (some fs))
    (hlf : fs.last_fetched = some lf)
    (hgate : (now - lf) / 3600 < 2) :
    fetch_feed cfg store now net = ⟨.ok none, store, false⟩ := by
  rw [fetch_feed_eq_of_load hload, fetchAfterLoad_eq_of_stamp hlf, if_pos hgate]

theorem dueGate_skips_within_two_hours_witness :
    fetch_feed ⟨"u", 14400, .ETag, "d"⟩ ⟨[⟨1, "u", none, some (.good 0), none⟩], []⟩ 3600
      (fun _ => ⟨200, none, none, some ⟨[]⟩⟩)
      = ⟨.ok none, ⟨[⟨1, "u", none, some (.good 0), none⟩], []⟩, false⟩ :=
  dueGate_skips_within_two_hours ⟨"u", 14400, .ETag, "d"⟩
    ⟨[⟨1, "u", none, some (.good 0), none⟩], []⟩ 3600
    (fun _ => ⟨200, none, none, some ⟨[]⟩⟩) ⟨1, "u", none, some 0, none⟩ 0
    (by decide) (by decide) (by decide)

/-- C1 fails on the code: with a stored row for the feed, a 304 response
carrying a new ETag token leaves the store completely untouched — the stored
etag stays the old token and last_fetched stays NULL — and fetch_feed
returns Err(EntryConversionError(SummaryExtractionError)) instead of a
skipped Ok(None): response headers are read only on the fresh-data branch
(lines 140-151) and a 304 falls into the else branch at lines 174-179. -/
theorem notModified_discards_new_etag :
    fetch_feed ⟨"u", 14400, .ETag, "d"⟩
      ⟨[⟨1, "u", none, none, some "old"⟩], []⟩ 7200
      (fun _ => ⟨304, none, some "new", none⟩)
      = ⟨.err (.entryConversionError .summaryExtractionError),
         ⟨[⟨1, "u", none, none, some "old"⟩], []⟩, true⟩ ∧
    etagOf ⟨[⟨1, "u", none, none, some "old"⟩], []⟩ "u" = some "old" ∧
    lastFetchedOf ⟨[⟨1, "u", none, none, some "old"⟩], []⟩ "u" = none :=
  ⟨by decide, by decide, by decide⟩

theorem bare_insert_reread (store : Store) (url : String)
    (h : store.feeds.find? (fun r => r.feed_url == url) = none) :
    feed_stats_from_db
      { store with feeds := store.feeds ++ [⟨freshFeedId store, url, none, none, none⟩] } url
      = .ok (some ⟨freshFeedId store, url, none, none, none⟩) := by
  unfold feed_stats_from_db
  rw [show ({ store with feeds := store.feeds ++ [⟨freshFeedId store, url, none, none, none⟩] } : Store).feeds
      = store.feeds ++ [⟨freshFeedId store, url, none, none, none⟩] from rfl]
  rw [find?_append_none h]
  simp [List.find?]

theorem create_eq_of_absent (store : Store) (url : String)
    (h : store.feeds.find? (fun r => r.feed_url == url) = none) :
    new_feed_stats_to_db store url =
      (.ok ⟨freshFeedId store, url, none, none, none⟩,
       { store with feeds := store.feeds ++ [⟨freshFeedId store, url, none, none, none⟩] }) := by
  simp only [new_feed_stats_to_db, bare_insert_reread store url h]

theorem fetchRequest_eq_of_429 {cfg : FeedConfigEntry} {fs : FeedStats}
    {store : Store} {now : Nat} {net : HttpRequest → HttpResponse}
    (h429 : (net ⟨cfg.url, conditionalHeader cfg fs⟩).status = 429) :
    fetchRequest cfg fs store now net =
      ⟨.err (.entryConversionError .summaryExtractionError), store, true⟩ := by
  simp [fetchRequest, classifyResponse, h429]

/-- C4: when the conditional fetch meets a 429 rate limit (every network
response has status 429), the poll leaves the stored last_fetched for the
feed exactly as before — absent stays absent, a prior timestamp stays that
timestamp — so the due-ness gate will let the next eligible poll retry; when
the feed already had a row, the entire store is left untouched. -/
theorem rateLimited_preserves_last_fetched (cfg : FeedConfigEntry)
    (store : Store) (now : Nat) (net : HttpRequest → HttpResponse)
    (h429 : ∀ req, (net req).status = 429) :
    lastFetchedOf (fetch_feed cfg store now net).store cfg.url
      = lastFetchedOf store cfg.url ∧
    ((store.feeds.find? (fun r => r.feed_url == cfg.url)).isSome →
      (fetch_feed cfg store now net).store = store) := by
  have hafter : ∀ fs st, (fetchAfterLoad cfg fs st now net).store = st := by
    intro fs st
    cases hlf : fs.last_fetched with
    | none =>
      rw [fetchAfterLoad_eq_of_fresh hlf, fetchRequest_eq_of_429 (h429 _)]
    | some lf =>
      rw [fetchAfterLoad_eq_of_stamp hlf]
      by_cases hg : (now - lf) / 3600 < 2
      · rw [if_pos hg]
      · rw [if_neg hg, fetchRequest_eq_of_429 (h429 _)]
  cases hload : feed_stats_from_db store cfg.url with
  | panicked m =>
    rw [fetch_feed_eq_of_panic hload]
    exact ⟨rfl, fun _ => rfl⟩
  | ok v =>
    cases v with
    | some fs =>
      rw [fetch_feed_eq_of_load hload, hafter fs store]
      exact ⟨rfl, fun _ => rfl⟩
    | none =>
      have hfind := from_db_none_inv hload
      rw [fetch_feed_eq_of_create hload (create_eq_of_absent store cfg.url hfind),
        hafter]
      constructor
      · unfold lastFetchedOf
        rw [show ({ store with feeds := store.feeds ++
            [⟨freshFeedId store, cfg.url, none, none, none⟩] } : Store).feeds
          = store.feeds ++ [⟨freshFeedId store, cfg.url, none, none, none⟩] from rfl]
        rw [find?_append_none hfind, hfind]
        simp [List.find?]
      · intro hsome
        rw [hfind] at hsome
        simp at hsome

theorem rateLimited_preserves_last_fetched_witness :
    lastFetchedOf (fetch_feed ⟨"u", 14400, .ETag, "d"⟩
        ⟨[⟨1, "u", none, some (.good 0), some "e"⟩], []⟩ 10800
        (fun _ => ⟨429, none, none, none⟩)).store "u"
      = lastFetchedOf ⟨[⟨1, "u", none, some (.good 0), some "e"⟩], []⟩ "u" ∧
    (((⟨[⟨1, "u", none, some (.good 0), some "e"⟩], []⟩ : Store).feeds.find?
        (fun r => r.feed_url == "u")).isSome →
      (fetch_feed ⟨"u", 14400, .ETag, "d"⟩
        ⟨[⟨1, "u", none, some (.good 0), some "e"⟩], []⟩ 10800
        (fun _ => ⟨429, none, none, none⟩)).store
        = ⟨[⟨1, "u", none, some (.good 0), some "e"⟩], []⟩) :=
  rateLimited_preserves_last_fetched ⟨"u", 14400, .ETag, "d"⟩
    ⟨[⟨1, "u", none, some (.good 0), some "e"⟩], []⟩ 10800
    (fun _ => ⟨429, none, none, none⟩) (fun _ => rfl)

theorem entries_feed_stats_to_db (store : Store) (s : FeedStats) :
    (feed_stats_to_db store s).entries = store.entries := by
  unfold feed_stats_to_db
  cases store.feeds.find? (fun r => r.feed_url == s.url) <;> rfl

theorem mem_entries_foldl (l : List Entry) (st : Store) {r : EntryRow}
    (h : r ∈ st.entries) : r ∈ (l.foldl new_entry_to_db st).entries := by
  induction l generalizing st with
  | nil => exact h
  | cons e t ih => exact ih (new_entry_to_db st e) (List.mem_append_left _ h)

theorem foldl_new_entry_adds (sl : List Entry) (st : Store) (ent : Entry)
    (h : ent ∈ sl) :
    ∃ row ∈ (sl.foldl new_entry_to_db st).entries, entryRowMatches row ent := by
  induction sl generalizing st with
  | nil => cases h
  | cons a t ih =>
    rcases List.mem_cons.mp h with rfl | hmem
    · refine ⟨⟨freshEntryId st, ent.feed_id, ent.feed_entry_id, ent.title, ent.updated,
        ent.authors, ent.summary, ent.content⟩,
        mem_entries_foldl t (new_entry_to_db st ent) ?_, ?_⟩
      · exact List.mem_append_right _ (List.mem_singleton_self _)
      · exact ⟨rfl, rfl, rfl, rfl, rfl, rfl, rfl⟩
    · exact ih (new_entry_to_db st a) hmem

theorem ingestEntries_persists (fid : Nat) (l : List FeedEntry) (st : Store)
    {e : FeedEntry} {ent : Entry} (he : e ∈ l)
    (hconv : entry_from_feed_entry fid e = .ok ent) :
    ∃ row ∈ (ingestEntries fid l st).entries, entryRowMatches row ent := by
  unfold ingestEntries
  apply foldl_new_entry_adds
  exact List.mem_filterMap.mpr ⟨e, he, by rw [hconv]⟩

theorem fetchRequest_fresh (cfg : FeedConfigEntry) (fs : FeedStats) (store : Store)
    (now : Nat) (net : HttpRequest → HttpResponse) (feed : Feed)
    (hst : (net ⟨cfg.url, conditionalHeader cfg fs⟩).status = 200)
    (hbody : (net ⟨cfg.url, conditionalHeader cfg fs⟩).body = some feed) :
    (fetchRequest cfg fs store now net).result = .ok (some feed) ∧
    (fetchRequest cfg fs store now net).store.entries
      = (ingestEntries fs.id feed.entries store).entries := by
  refine ⟨?_, ?_⟩ <;>
    simp [fetchRequest, classifyResponse, hst, hbody, entries_feed_stats_to_db]

/-- C9: on a fresh 200 response whose body parses to a feed, a conversion
failure of one entry does not abort the others: the poll hands the whole
parsed feed back to the caller and persists a matching entries row for every
entry whose conversion succeeds, failing entries being skipped. -/
theorem conversionFailure_isolated (cfg : FeedConfigEntry) (store : Store)
    (now : Nat) (net : HttpRequest → HttpResponse) (fs : FeedStats) (feed : Feed)
    (hload : feed_stats_from_db store cfg.url = .ok (some fs))
    (hnever : fs.last_fetched = none)
    (hst : (net ⟨cfg.url, conditionalHeader cfg fs⟩).status = 200)
    (hbody : (net ⟨cfg.url, conditionalHeader cfg fs⟩).body = some feed) :
    (fetch_feed cfg store now net).result = .ok (some feed) ∧
    ∀ e ∈ feed.entries, ∀ ent, entry_from_feed_entry fs.id e = .ok ent →
      ∃ row ∈ (fetch_feed cfg store now net).store.entries, entryRowMatches row ent := by
  rw [fetch_feed_eq_of_load hload, fetchAfterLoad_eq_of_fresh hnever]
  have hfr := fetchRequest_fresh cfg fs store now net feed hst hbody
  refine ⟨hfr.1, ?_⟩
  intro e he ent hconv
  rw [hfr.2]
  exact ingestEntries_persists fs.id feed.entries store he hconv

theorem conversionFailure_isolated_witness :
    (fetch_feed ⟨"u", 14400, .LastModified, "d"⟩ ⟨[⟨1, "u", none, none, none⟩], []⟩ 50
      (fun _ => ⟨200, none, none,
        some ⟨[⟨"id1", some ⟨"T1"⟩, none, [], none, some ⟨some "<p>one</p>"⟩⟩,
               ⟨"id2", none, none, [], none, none⟩,
               ⟨"id3", none, none, [⟨"A"⟩], some ⟨"sum"⟩, none⟩]⟩⟩)).result
      = .ok (some ⟨[⟨"id1", some ⟨"T1"⟩, none, [], none, some ⟨some "<p>one</p>"⟩⟩,
               ⟨"id2", none, none, [], none, none⟩,
               ⟨"id3", none, none, [⟨"A"⟩], some ⟨"sum"⟩, none⟩]⟩) ∧
    ∀ e ∈ (⟨[⟨"id1", some ⟨"T1"⟩, none, [], none, some ⟨some "<p>one</p>"⟩⟩,
               ⟨"id2", none, none, [], none, none⟩,
               ⟨"id3", none, none, [⟨"A"⟩], some ⟨"sum"⟩, none⟩]⟩ : Feed).entries,
      ∀ ent, entry_from_feed_entry 1 e = .ok ent →
      ∃ row ∈ (fetch_feed ⟨"u", 14400, .LastModified, "d"⟩ ⟨[⟨1, "u", none, none, none⟩], []⟩ 50
        (fun _ => ⟨200, none, none,
          some ⟨[⟨"id1", some ⟨"T1"⟩, none, [], none, some ⟨some "<p>one</p>"⟩⟩,
                 ⟨"id2", none, none, [], none, none⟩,
                 ⟨"id3", none, none, [⟨"A"⟩], some ⟨"sum"⟩, none⟩]⟩⟩)).store.entries,
        entryRowMatches row ent :=
  conversionFailure_isolated ⟨"u", 14400, .LastModified, "d"⟩
    ⟨[⟨1, "u", none, none, none⟩], []⟩ 50
    (fun _ => ⟨200, none, none,
      some ⟨[⟨"id1", some ⟨"T1"⟩, none, [], none, some ⟨some "<p>one</p>"⟩⟩,
             ⟨"id2", none, none, [], none, none⟩,
             ⟨"id3", none, none, [⟨"A"⟩], some ⟨"sum"⟩, none⟩]⟩⟩)
    ⟨1, "u", none, none, none⟩
    ⟨[⟨"id1", some ⟨"T1"⟩, none, [], none, some ⟨some "<p>one</p>"⟩⟩,
      ⟨"id2", none, none, [], none, none⟩,
      ⟨"id3", none, none, [⟨"A"⟩], some ⟨"sum"⟩, none⟩]⟩
    (by decide) rfl rfl rfl

theorem le_foldr_max {x : Nat} {l : List Nat} (h : x ∈ l) : x ≤ l.foldr max 0 := by
  induction l with
  | nil => cases h
  | cons a t ih =>
    rcases List.mem_cons.mp h with rfl | hm
    · exact Nat.le_max_left _ _
    · exact Nat.le_trans (ih hm) (Nat.le_max_right _ _)

theorem freshId_not_mem (l : List Nat) : freshId l ∉ l := by
  intro h
  have hle := le_foldr_max h
  unfold freshId at hle
  omega

theorem map_map_congr {β : Type _} {l : List FeedRow} {f : FeedRow → FeedRow}
    (g : FeedRow → β) (h : ∀ r ∈ l, g (f r) = g r) :
    (l.map f).map g = l.map g := by
  rw [List.map_map]
  exact List.map_congr_left (fun r hr => h r hr)

theorem find?_map_id_agrees {l : List FeedRow} {f : FeedRow → FeedRow} {url : String}
    (h : ∀ r ∈ l, (f r).id = r.id ∧ (f r).feed_url = r.feed_url) :
    ((l.map f).find? (fun r => r.feed_url == url)).map (fun r => r.id)
      = (l.find? (fun r => r.feed_url == url)).map (fun r => r.id) := by
  induction l with
  | nil => rfl
  | cons a t ih =>
    have ha := h a (List.mem_cons_self a t)
    rw [List.map_cons]
    cases hpa : (a.feed_url == url) with
    | true =>
      have hfa : ((f a).feed_url == url) = true := by rw [ha.2]; exact hpa
      simp only [List.find?_cons, hpa, hfa]
      simp [ha.1]
    | false =>
      have hfa : ((f a).feed_url == url) = false := by rw [ha.2]; exact hpa
      simp only [List.find?_cons, hpa, hfa]
      exact ih (fun r hr => h r (List.mem_cons_of_mem a hr))

theorem append_row_preserves (store : Store) (row : FeedRow) (hwf : wfFeeds store)
    (hfind : store.feeds.find? (fun r => r.feed_url == row.feed_url) = none)
    (hid : row.id = freshFeedId store) :
    wfFeeds { store with feeds := store.feeds ++ [row] } ∧
    ∀ url i, feedIdOf store url = some i →
      feedIdOf { store with feeds := store.feeds ++ [row] } url = some i := by
  have hnotin : row.feed_url ∉ store.feeds.map (fun r => r.feed_url) := by
    intro hmem
    rcases List.mem_map.mp hmem with ⟨r, hr, hru⟩
    have hnp := List.find?_eq_none.mp hfind r hr
    simp [hru] at hnp
  refine ⟨⟨?_, ?_⟩, ?_⟩
  · show ((store.feeds ++ [row]).map (fun r => r.feed_url)).Nodup
    rw [List.map_append]
    refine List.nodup_append.mpr ⟨hwf.1, List.nodup_singleton _, ?_⟩
    intro x hx hx2
    have hxe : x = row.feed_url := List.mem_singleton.mp hx2
    rw [hxe] at hx
    exact hnotin hx
  · show ((store.feeds ++ [row]).map (fun r => r.id)).Nodup
    rw [List.map_append]
    refine List.nodup_append.mpr ⟨hwf.2, List.nodup_singleton _, ?_⟩
    intro x hx hx2
    have hxf : x = row.id := List.mem_singleton.mp hx2
    rw [hxf, hid] at hx
    exact freshId_not_mem _ hx
  · intro url i hprev
    unfold feedIdOf at hprev ⊢
    cases hfd : store.feeds.find? (fun r => r.feed_url == url) with
    | none => rw [hfd] at hprev; simp at hprev
    | some r0 =>
      rw [hfd] at hprev
      rw [show ({ store with feeds := store.feeds ++ [row] } : Store).feeds
          = store.feeds ++ [row] from rfl]
      rw [find?_append_some hfd]
      exact hprev

theorem save_step_preserves (store : Store) (s : FeedStats) (hwf : wfFeeds store) :
    wfFeeds (feed_stats_to_db store s) ∧
    ∀ url i, feedIdOf store url = some i →
      feedIdOf (feed_stats_to_db store s) url = some i := by
  unfold feed_stats_to_db
  cases hfind : store.feeds.find? (fun r => r.feed_url == s.url) with
  | none =>
    exact append_row_preserves store
      ⟨freshFeedId store, s.url, s.last_modified, serializeLastFetched s.last_fetched, s.etag⟩
      hwf hfind rfl
  | some old =>
    have hold_mem := List.mem_of_find?_eq_some hfind
    have hold_url : old.feed_url = s.url := by
      have hp := List.find?_some hfind
      simpa using hp
    have hpt : ∀ r ∈ store.feeds,
        ((if r.id == old.id then
            (⟨old.id, s.url, s.last_modified, serializeLastFetched s.last_fetched, s.etag⟩ : FeedRow)
          else r).id = r.id ∧
         (if r.id == old.id then
            (⟨old.id, s.url, s.last_modified, serializeLastFetched s.last_fetched, s.etag⟩ : FeedRow)
          else r).feed_url = r.feed_url) := by
      intro r hr
      by_cases hidp : (r.id == old.id) = true
      · have hre : r = old :=
          List.inj_on_of_nodup_map hwf.2 hr hold_mem (by simpa using hidp)
        rw [if_pos hidp, hre]
        exact ⟨rfl, hold_url.symm⟩
      · rw [if_neg hidp]
        exact ⟨rfl, rfl⟩
    refine ⟨⟨?_, ?_⟩, ?_⟩
    · show ((store.feeds.map (fun r =>
          if r.id == old.id then
            (⟨old.id, s.url, s.last_modified, serializeLastFetched s.last_fetched, s.etag⟩ : FeedRow)
          else r)).map (fun r => r.feed_url)).Nodup
      rw [map_map_congr (fun r => r.feed_url) (fun r hr => (hpt r hr).2)]
      exact hwf.1
    · show ((store.feeds.map (fun r =>
          if r.id == old.id then
            (⟨old.id, s.url, s.last_modified, serializeLastFetched s.last_fetched, s.etag⟩ : FeedRow)
          else r)).map (fun r => r.id)).Nodup
      rw [map_map_congr (fun r => r.id) (fun r hr => (hpt r hr).1)]
      exact hwf.2
    · intro url i hprev
      unfold feedIdOf at hprev ⊢
      rw [show ({ store with feeds := store.feeds.map (fun r =>
          if r.id == old.id then
            (⟨old.id, s.url, s.last_modified, serializeLastFetched s.last_fetched, s.etag⟩ : FeedRow)
          else r) } : Store).feeds
        = store.feeds.map (fun r =>
          if r.id == old.id then
            (⟨old.id, s.url, s.last_modified, serializeLastFetched s.last_fetched, s.etag⟩ : FeedRow)
          else r) from rfl]
      rw [find?_map_id_agrees (fun r hr => hpt r hr)]
      exact hprev

theorem applyOp_preserves (store : Store) (op : StoreOp) (hwf : wfFeeds store) :
    wfFeeds (applyOp store op) ∧
    ∀ url i, feedIdOf store url = some i → feedIdOf (applyOp store op) url = some i := by
  cases op with
  | save s => exact save_step_preserves store s hwf
  | addEntry e => exact ⟨hwf, fun _ _ h => h⟩
  | loadOrCreate u =>
    rw [show applyOp store (.loadOrCreate u) =
        (match feed_stats_from_db store u with
         | .ok none => (new_feed_stats_to_db store u).2
         | _ => store) from rfl]
    cases hdb : feed_stats_from_db store u with
    | panicked m => exact ⟨hwf, fun _ _ h => h⟩
    | ok v =>
      cases v with
      | some fs => exact ⟨hwf, fun _ _ h => h⟩
      | none =>
        have hfind := from_db_none_inv hdb
        rw [create_eq_of_absent store u hfind]
        exact append_row_preserves store ⟨freshFeedId store, u, none, none, none⟩
          hwf hfind rfl

/-- C6 fails as stated: calling createFeedStats twice with the same url
leaves two feeds rows for that url — the insert is a plain INSERT and the
schema has no UNIQUE constraint on feed_url, so nothing deduplicates. -/
theorem createFeedStats_twice_duplicates :
    (feedRowsFor (new_feed_stats_to_db (new_feed_stats_to_db emptyStore "u").2 "u").2
      "u").length = 2 :=
  by decide

/-- C6 (amended): under the load-or-create discipline the Coordinator
actually follows — createFeedStats is invoked only when getFeedStats finds
nothing — any sequence of saves, guarded creates and entry writes on a
well-formed store keeps the feeds table well-formed (pairwise distinct urls,
so at most one row per url, and pairwise distinct rowids) and never changes
the id of an existing row for a url; an unguarded repeated create violates
the invariant. -/
theorem uniqueUrl_stableId_under_guarded_ops (ops : List StoreOp) (store : Store)
    (hwf : wfFeeds store) :
    wfFeeds (applyOps store ops) ∧
    ∀ url i, feedIdOf store url = some i → feedIdOf (applyOps store ops) url = some i := by
  induction ops generalizing store with
  | nil => exact ⟨hwf, fun _ _ h => h⟩
  | cons op t ih =>
    have h1 := applyOp_preserves store op hwf
    have h2 := ih (applyOp store op) h1.1
    exact ⟨h2.1, fun url i h => h2.2 url i (h1.2 url i h)⟩

theorem uniqueUrl_stableId_under_guarded_ops_witness :
    wfFeeds (applyOps emptyStore
      [.loadOrCreate "u", .save ⟨1, "u", some "lm", some 5, some "e"⟩]) ∧
    ∀ url i, feedIdOf emptyStore url = some i →
      feedIdOf (applyOps emptyStore
        [.loadOrCreate "u", .save ⟨1, "u", some "lm", some 5, some "e"⟩]) url = some i :=
  uniqueUrl_stableId_under_guarded_ops
    [.loadOrCreate "u", .save ⟨1, "u", some "lm", some 5, some "e"⟩] emptyStore (by decide)
